import Mathlib

/-!
Shallow embedding of the homepage feature-card component of the
davydrudenkoua documentation site
(`src/components/HomepageFeatures/index.tsx`).

The component is a pure data-to-markup mapper: a module-level list literal
`FeatureList` of feature records is mapped by `HomepageFeatures` into a
sectioned row of cards, one card per record, produced by `Feature`.

Markup (JSX output) is embedded as a tree type `Node`; React components
from the theme are embedded by the concrete markup they stand for
(`Heading as="h3"` as an `h3` element, `Link … to=…` as an `a` element
carrying a `to` attribute, an imported SVG component as an `svgIcon` leaf
identified by its asset name). React `key` props are embedded by pairing
each row child with its key (`rowEntries`).
-/

namespace Homepage

mutual
/-- Markup tree: text leaves, SVG icon leaves (asset identity plus
attributes), and elements with a tag, an attribute list and children.
`NodeList` is the (mutually inductive) list of children, so that all
recursions below are structural and kernel-reducible. -/
inductive Node : Type where
  | text : String → Node
  | svgIcon : String → List (String × String) → Node
  | element : String → List (String × String) → NodeList → Node
deriving DecidableEq
inductive NodeList : Type where
  | nil : NodeList
  | cons : Node → NodeList → NodeList
deriving DecidableEq
end

/-- Convert an ordinary list of nodes into a `NodeList`. -/
def NodeList.ofList : List Node → NodeList
  | [] => .nil
  | n :: ns => .cons n (NodeList.ofList ns)

/-- The space character, used to split `className` strings into class
tokens (CSS class-attribute semantics). -/
def spaceChar : Char := Char.ofNat 32

/-- Split a character list into maximal space-free tokens. -/
def splitClassesAux : List Char → List Char → List (List Char)
  | [], acc => if acc = [] then [] else [acc.reverse]
  | c :: rest, acc =>
      if c = spaceChar then
        (if acc = [] then splitClassesAux rest []
         else acc.reverse :: splitClassesAux rest [])
      else splitClassesAux rest (c :: acc)

/-- Does an attribute list carry CSS class `c`?  Reads the `className`
attribute and splits it into space-separated class tokens. -/
def hasClass (attrs : List (String × String)) (c : String) : Bool :=
  ((splitClassesAux ((attrs.lookup "className").getD "").data []).contains c.data)

/-- One homepage feature record (`type FeatureItem` in the source):
a display title, the icon asset (identity only, per the asset pipeline
contract), a description markup fragment, and a route path. -/
structure FeatureItem : Type where
  title : String
  Svg : String
  description : Node
  linkTo : String
deriving DecidableEq

/-- Embedding of `clsx('col col--4')`: `clsx` applied to one plain string
is that string. -/
def clsx (s : String) : String := s

/-- Class token exposed by `styles.module.css` as `styles.features`. -/
def stylesFeatures : String := "features"

/-- Class token exposed by `styles.module.css` as `styles.featureSvg`. -/
def stylesFeatureSvg : String := "featureSvg"

/-- The module-level `FeatureList` literal: two records, in declaration
order, both using the `azure-aks-color.svg` asset. -/
def FeatureList : List FeatureItem :=
  [ { title := "Workload Identities in AKS"
    , Svg := "azure-aks-color.svg"
    , description :=
        Node.text "Learn how to setup your cluster for using Azure Workload Identity"
    , linkTo := "/docs/aks/aks-workload-identity" }
  , { title := "Scaling pods and nodes in AKS"
    , Svg := "azure-aks-color.svg"
    , description :=
        Node.text "Learn how to scale your AKS resources using KEDA and Cluster Autoscaler"
    , linkTo := "/docs/aks/aks-scaling" } ]

/-- Embedding of `function Feature({title, Svg, description, linkTo})`:
one card — a `col col--4` div holding a centered icon div, and a centered
content div with an `h3` heading showing the title, a paragraph holding
the description fragment, and a button-styled link to `linkTo` labelled
`Read`. -/
def Feature (it : FeatureItem) : Node :=
  Node.element "div" [("className", clsx "col col--4")] (.ofList
    [ Node.element "div" [("className", "text--center")] (.ofList
        [ Node.svgIcon it.Svg [("className", stylesFeatureSvg), ("role", "img")] ])
    , Node.element "div" [("className", "text--center padding-horiz--md")] (.ofList
        [ Node.element "h3" [] (.ofList [ Node.text it.title ])
        , Node.element "p" [] (.ofList [ it.description ])
        , Node.element "a"
            [("className", "button button--secondary button--lg"), ("to", it.linkTo)]
            (.ofList [ Node.text "Read" ]) ]) ])

/-- Embedding of `FeatureList.map((props, idx) => <Feature key={idx} …/>)`:
the row children paired with their React keys (the position index). -/
def rowEntries (fl : List FeatureItem) : List (Nat × Node) :=
  fl.enum.map fun p => (p.1, Feature p.2)

/-- Embedding of the body of `HomepageFeatures`, abstracted over the list
it reads: a `section` wrapping a `container` div wrapping a centered row
of the keyed cards. -/
def HomepageFeaturesOf (fl : List FeatureItem) : Node :=
  Node.element "section" [("className", stylesFeatures)] (.ofList
    [ Node.element "div" [("className", "container")] (.ofList
        [ Node.element "div" [("className", "row justify-content-center")]
            (NodeList.ofList ((rowEntries fl).map Prod.snd)) ]) ])

/-- Embedding of `export default function HomepageFeatures()`: it reads
the module-level `FeatureList`. -/
def HomepageFeatures : Node := HomepageFeaturesOf FeatureList

/-- Effect-aware embedding of one invocation of `Feature`: the source body
is a single return of a markup expression, with no read or write of any
ambient state, so the run threads an arbitrary world `w` unchanged. -/
def featureRun (W : Type) (it : FeatureItem) (w : W) : Node × W := (Feature it, w)

/-- Effect-aware embedding of one invocation of `HomepageFeatures` (same
reasoning: the body is a single return of a markup expression). -/
def homepageRun (W : Type) (w : W) : Node × W := (HomepageFeatures, w)

/-- Serialize an attribute list to its markup text. -/
def serializeAttrs : List (String × String) → String
  | [] => ""
  | (k, v) :: rest => " " ++ k ++ "=\"" ++ v ++ "\"" ++ serializeAttrs rest

mutual
/-- Serialize a markup tree to the byte string the host framework would
emit for it. -/
def serialize : Node → String
  | .text s => s
  | .svgIcon asset attrs =>
      "<svg data-asset=\"" ++ asset ++ "\"" ++ serializeAttrs attrs ++ "/>"
  | .element tag attrs children =>
      "<" ++ tag ++ serializeAttrs attrs ++ ">" ++ serializeList children
        ++ "</" ++ tag ++ ">"
  termination_by structural n => n
def serializeList : NodeList → String
  | .nil => ""
  | .cons n ns => serialize n ++ serializeList ns
  termination_by structural ns => ns
end

/-- Strings of the direct text children of a node list (e.g. the visible
text parts of a heading or of a link label). -/
def directTexts : NodeList → List String
  | .nil => []
  | .cons (Node.text s) ns => s :: directTexts ns
  | .cons _ ns => directTexts ns

/-- Asset names of the direct SVG-icon children of a node list. -/
def directSvgs : NodeList → List String
  | .nil => []
  | .cons (Node.svgIcon a _) ns => a :: directSvgs ns
  | .cons _ ns => directSvgs ns

mutual
/-- Count of card units in a markup tree: elements carrying both the
`col` and `col--4` layout classes (the card wrapper produced by
`Feature`). -/
def cardCount : Node → Nat
  | .text _ => 0
  | .svgIcon _ _ => 0
  | .element _ attrs children =>
      (if hasClass attrs "col" && hasClass attrs "col--4" then 1 else 0)
        + cardCountList children
  termination_by structural n => n
/-- Total card count over a child list. -/
def cardCountList : NodeList → Nat
  | .nil => 0
  | .cons n .nil => cardCount n
  | .cons n ns => cardCount n + cardCountList ns
  termination_by structural ns => ns
end

mutual
/-- Text parts of every `h3` heading in a markup tree, in document
order (one entry per heading: the list of its direct text children). -/
def headingTexts : Node → List (List String)
  | .text _ => []
  | .svgIcon _ _ => []
  | .element tag _ children =>
      (if tag = "h3" then [directTexts children] else []) ++ headingTextsList children
  termination_by structural n => n
/-- Heading texts over a child list. -/
def headingTextsList : NodeList → List (List String)
  | .nil => []
  | .cons n .nil => headingTexts n
  | .cons n ns => headingTexts n ++ headingTextsList ns
  termination_by structural ns => ns
end

mutual
/-- Links in a markup tree, in document order: for every `a` element, its
`to` target together with its visible label (direct text parts). -/
def linkEntries : Node → List (String × List String)
  | .text _ => []
  | .svgIcon _ _ => []
  | .element tag attrs children =>
      (if tag = "a" then [((attrs.lookup "to").getD "", directTexts children)] else [])
        ++ linkEntriesList children
  termination_by structural n => n
/-- Link entries over a child list. -/
def linkEntriesList : NodeList → List (String × List String)
  | .nil => []
  | .cons n .nil => linkEntries n
  | .cons n ns => linkEntries n ++ linkEntriesList ns
  termination_by structural ns => ns
end

/-- Visible labels of all links in a markup tree, in document order. -/
def linkLabels (n : Node) : List (List String) := (linkEntries n).map Prod.snd

mutual
/-- SVG icons placed directly inside a `text--center` container, in
document order (the centered-icon layout used by `Feature`). -/
def centeredSvgs : Node → List String
  | .text _ => []
  | .svgIcon _ _ => []
  | .element _ attrs children =>
      (if hasClass attrs "text--center" then directSvgs children else [])
        ++ centeredSvgsList children
  termination_by structural n => n
/-- Centered SVG icons over a child list. -/
def centeredSvgsList : NodeList → List String
  | .nil => []
  | .cons n .nil => centeredSvgs n
  | .cons n ns => centeredSvgs n ++ centeredSvgsList ns
  termination_by structural ns => ns
end

mutual
/-- Contents (child lists) of every `p` paragraph element in a markup
tree, in document order. -/
def pContents : Node → List NodeList
  | .text _ => []
  | .svgIcon _ _ => []
  | .element tag _ children =>
      (if tag = "p" then [children] else []) ++ pContentsList children
  termination_by structural n => n
/-- Paragraph contents over a child list. -/
def pContentsList : NodeList → List NodeList
  | .nil => []
  | .cons n .nil => pContents n
  | .cons n ns => pContents n ++ pContentsList ns
  termination_by structural ns => ns
end

/-- Is this node a card: an element carrying the `col` and `col--4`
layout classes at its root? -/
def isCard : Node → Bool
  | .element _ attrs _ => hasClass attrs "col" && hasClass attrs "col--4"
  | _ => false

/-- The markdown documents published by this repository, as paths of the
files that exist under `docs/`. -/
def docFiles : List String :=
  ["docs/aks/aks-workload-identity.md", "docs/aks/aks-scaling.md"]

/-- Modelled from the spec: the routing contract (spec section 6) is that
each published markdown document under `docs/` is served at the route
`"/" ++ its path without the ".md" extension`; the doc-generation
framework that realises this mapping is outside `src/`. -/
def routeOfDocFile (p : String) : String :=
  String.mk ("/".data ++ p.data.take (p.data.length - 3))

/-- The routes published by the site, one per document file. -/
def publishedRoutes : List String := docFiles.map routeOfDocFile

/-!
General facts about the embedded component, shared by the claim
theorems below.
-/

theorem headingTexts_Feature (it : FeatureItem) :
    headingTexts (Feature it) = [it.title] :: headingTexts it.description := by
  show [it.title] :: (headingTexts it.description ++ []) = _
  simp

theorem linkEntries_Feature (it : FeatureItem) :
    linkEntries (Feature it) = linkEntries it.description ++ [(it.linkTo, ["Read"])] := rfl

theorem linkLabels_Feature (it : FeatureItem) :
    linkLabels (Feature it) = linkLabels it.description ++ [["Read"]] := by
  simp [linkLabels, linkEntries_Feature]

theorem centeredSvgs_Feature (it : FeatureItem) :
    centeredSvgs (Feature it) = it.Svg :: centeredSvgs it.description := by
  show it.Svg :: (centeredSvgs it.description ++ []) = _
  simp

theorem pContents_Feature (it : FeatureItem) :
    pContents (Feature it) =
      NodeList.cons it.description NodeList.nil :: pContents it.description := by
  show NodeList.cons it.description NodeList.nil :: (pContents it.description ++ []) = _
  simp

theorem cardCount_Feature (it : FeatureItem) :
    cardCount (Feature it) = 1 + cardCount it.description := by
  show 1 + (0 + (0 + (0 + (0 + cardCount it.description)))) = _
  omega

theorem isCard_Feature (it : FeatureItem) : isCard (Feature it) = true := rfl

theorem rowEntries_length (fl : List FeatureItem) :
    (rowEntries fl).length = fl.length := by
  simp [rowEntries]

theorem rowEntries_map_snd (fl : List FeatureItem) :
    (rowEntries fl).map Prod.snd = fl.map Feature := by
  rw [rowEntries, List.map_map]
  rw [show (Prod.snd ∘ fun p : Nat × FeatureItem => (p.1, Feature p.2))
        = Feature ∘ Prod.snd from rfl]
  rw [← List.map_map, List.enum_map_snd]

theorem rowEntries_map_fst (fl : List FeatureItem) :
    (rowEntries fl).map Prod.fst = List.range fl.length := by
  rw [rowEntries, List.map_map]
  rw [show (Prod.fst ∘ fun p : Nat × FeatureItem => (p.1, Feature p.2))
        = Prod.fst from rfl]
  rw [List.enum_map_fst]

theorem rowEntries_getElem (fl : List FeatureItem) (i : Nat) (h : i < fl.length) :
    (rowEntries fl)[i]? = some (i, Feature (fl.get ⟨i, h⟩)) := by
  rw [rowEntries, List.getElem?_map, List.getElem?_enum,
    List.getElem?_eq_getElem h]
  rfl

theorem cardCountList_ofList (l : List Node) :
    cardCountList (NodeList.ofList l) = (l.map cardCount).sum := by
  induction l with
  | nil => rfl
  | cons n l ih =>
    cases l with
    | nil => simp [NodeList.ofList, cardCountList]
    | cons m ms =>
      simp only [NodeList.ofList, cardCountList, List.map_cons, List.sum_cons] at ih ⊢
      omega

theorem sum_cardCount_map (fl : List FeatureItem)
    (hdesc : ∀ it ∈ fl, cardCount it.description = 0) :
    ((fl.map Feature).map cardCount).sum = fl.length := by
  induction fl with
  | nil => rfl
  | cons x xs ih =>
    simp only [List.map_cons, List.sum_cons, List.length_cons]
    rw [cardCount_Feature, hdesc x (by simp),
      ih (fun it hit => hdesc it (by simp [hit]))]
    omega

theorem cardCount_HomepageFeaturesOf (fl : List FeatureItem)
    (hdesc : ∀ it ∈ fl, cardCount it.description = 0) :
    cardCount (HomepageFeaturesOf fl) = fl.length := by
  have h1 : cardCount (HomepageFeaturesOf fl)
      = cardCountList (NodeList.ofList ((rowEntries fl).map Prod.snd)) := by
    show 0 + (0 + (0 + cardCountList (NodeList.ofList ((rowEntries fl).map Prod.snd)))) = _
    omega
  rw [h1, rowEntries_map_snd, cardCountList_ofList, sum_cardCount_map fl hdesc]

/-!
Claim theorems.
-/

/-- C1: for every FeatureList of N entries, the markup produced by
HomepageFeatures contains exactly N card units (provided the description
fragments contain no card wrapper of their own, as in the actual list),
one per list entry, in list order, each keyed by its position index. -/
theorem homepage_one_card_per_entry (fl : List FeatureItem)
    (hdesc : ∀ it ∈ fl, cardCount it.description = 0) :
    cardCount (HomepageFeaturesOf fl) = fl.length ∧
    (rowEntries fl).length = fl.length ∧
    ∀ i, ∀ h : i < fl.length,
      (rowEntries fl)[i]? = some (i, Feature (fl.get ⟨i, h⟩)) :=
  ⟨cardCount_HomepageFeaturesOf fl hdesc, rowEntries_length fl,
   fun i h => rowEntries_getElem fl i h⟩

/-- Witness for C1 at the actual FeatureList: two cards, and entry 1 is
the scaling card keyed 1. -/
theorem homepage_one_card_per_entry_witness :
    cardCount (HomepageFeaturesOf FeatureList) = 2 ∧
    (rowEntries FeatureList)[1]? = some (1, Feature
      { title := "Scaling pods and nodes in AKS"
      , Svg := "azure-aks-color.svg"
      , description :=
          Node.text "Learn how to scale your AKS resources using KEDA and Cluster Autoscaler"
      , linkTo := "/docs/aks/aks-scaling" }) :=
  ⟨((homepage_one_card_per_entry FeatureList (by decide)).1).trans (by decide),
   (homepage_one_card_per_entry FeatureList (by decide)).2.2 1 (by decide)⟩

/-- C2: every card contains a centered icon (the item's asset), an `h3`
heading whose text is exactly the item's title, the item's description in
a paragraph, and a call-to-action link targeting exactly the item's
`linkTo` with visible label `Read`; in particular the two actual items
yield heading `Workload Identities in AKS` and target
`/docs/aks/aks-scaling` respectively. -/
theorem feature_card_contents (it : FeatureItem) :
    headingTexts (Feature it) = [it.title] :: headingTexts it.description ∧
    linkEntries (Feature it) = linkEntries it.description ++ [(it.linkTo, ["Read"])] ∧
    centeredSvgs (Feature it) = it.Svg :: centeredSvgs it.description ∧
    pContents (Feature it) =
      NodeList.cons it.description NodeList.nil :: pContents it.description ∧
    (FeatureList.map fun j => headingTexts (Feature j)) =
      [[["Workload Identities in AKS"]], [["Scaling pods and nodes in AKS"]]] ∧
    (FeatureList.map fun j => linkEntries (Feature j)) =
      [ [("/docs/aks/aks-workload-identity", ["Read"])]
      , [("/docs/aks/aks-scaling", ["Read"])] ] :=
  ⟨headingTexts_Feature it, linkEntries_Feature it, centeredSvgs_Feature it,
   pContents_Feature it, by decide, by decide⟩

/-- C3: rendering is pure and deterministic — a run of `Feature` or of
`HomepageFeatures` returns the same markup on every invocation with the
same input, leaves any ambient world unchanged, and serializes to
byte-identical output. -/
theorem render_pure (W : Type) (it : FeatureItem) (w v : W) :
    featureRun W it w = (Feature it, w) ∧
    (featureRun W it w).1 = (featureRun W it v).1 ∧
    homepageRun W w = (HomepageFeatures, w) ∧
    serialize (homepageRun W w).1 = serialize (homepageRun W v).1 :=
  ⟨rfl, rfl, rfl, rfl⟩

/-- C4: rendering with an empty FeatureList yields the section, container
and row with zero children and zero card units (a value, not an error). -/
theorem homepage_empty_row :
    HomepageFeaturesOf [] =
      Node.element "section" [("className", stylesFeatures)] (.cons
        (Node.element "div" [("className", "container")] (.cons
          (Node.element "div" [("className", "row justify-content-center")] .nil)
          .nil))
        .nil) ∧
    cardCount (HomepageFeaturesOf []) = 0 :=
  ⟨rfl, rfl⟩

/-- C5: HomepageFeatures reads the constant FeatureList, the on-page card
order equals declaration order, the keys are `0, 1, …`, and a render run
mutates nothing. -/
theorem homepage_declaration_order (fl : List FeatureItem) (W : Type) (w : W) :
    HomepageFeatures = HomepageFeaturesOf FeatureList ∧
    (rowEntries fl).map Prod.snd = fl.map Feature ∧
    (rowEntries fl).map Prod.fst = List.range fl.length ∧
    homepageRun W w = (HomepageFeatures, w) :=
  ⟨rfl, rowEntries_map_snd fl, rowEntries_map_fst fl, rfl⟩

/-- C6: every `linkTo` of FeatureList is a published route of the site
(a documentation file present under `docs/`). -/
theorem featureList_links_published (r : String)
    (hr : r ∈ FeatureList.map fun it => it.linkTo) :
    r ∈ publishedRoutes := by
  have hall : ∀ x ∈ FeatureList.map fun it => it.linkTo, x ∈ publishedRoutes := by
    decide
  exact hall r hr

/-- Witness for C6: both concrete link paths are published routes. -/
theorem featureList_links_published_witness :
    "/docs/aks/aks-workload-identity" ∈ publishedRoutes ∧
    "/docs/aks/aks-scaling" ∈ publishedRoutes :=
  ⟨featureList_links_published "/docs/aks/aks-workload-identity" (by decide),
   featureList_links_published "/docs/aks/aks-scaling" (by decide)⟩

/-- C7: the description fragment of every item appears verbatim, as the
sole content of the card's paragraph element, untransformed. -/
theorem description_verbatim (it : FeatureItem) :
    pContents (Feature it) =
      NodeList.cons it.description NodeList.nil :: pContents it.description :=
  pContents_Feature it

/-- C8: the FeatureList literal has exactly the two declared entries, in
declaration order, both referencing the `azure-aks-color.svg` asset. -/
theorem featureList_literal :
    FeatureList.length = 2 ∧
    (FeatureList.map fun it => (it.title, it.linkTo, it.Svg)) =
      [ ("Workload Identities in AKS", "/docs/aks/aks-workload-identity",
          "azure-aks-color.svg")
      , ("Scaling pods and nodes in AKS", "/docs/aks/aks-scaling",
          "azure-aks-color.svg") ] :=
  ⟨rfl, by decide⟩

/-- C9: the visible label of the card's call-to-action link is the
constant `Read`: it sits after whatever links the description holds, and
for description fragments holding no links (as in the actual list) the
card's link labels are exactly `Read`, identical across any two items. -/
theorem read_label_constant (a b : FeatureItem)
    (ha : linkLabels a.description = []) (hb : linkLabels b.description = []) :
    linkLabels (Feature a) = linkLabels a.description ++ [["Read"]] ∧
    linkLabels (Feature a) = [["Read"]] ∧
    linkLabels (Feature a) = linkLabels (Feature b) := by
  refine ⟨linkLabels_Feature a, ?_, ?_⟩
  · rw [linkLabels_Feature a, ha]
    rfl
  · rw [linkLabels_Feature a, linkLabels_Feature b, ha, hb]

/-- Witness for C9: two items differing in every field produce the same
call-to-action label `Read`. -/
theorem read_label_constant_witness :
    linkLabels (Feature ⟨"T1", "icon1.svg", Node.text "d1", "/l1"⟩) = [["Read"]] ∧
    linkLabels (Feature ⟨"T1", "icon1.svg", Node.text "d1", "/l1"⟩)
      = linkLabels (Feature ⟨"T2", "icon2.svg", Node.text "d2", "/l2"⟩) :=
  ⟨(read_label_constant ⟨"T1", "icon1.svg", Node.text "d1", "/l1"⟩
      ⟨"T2", "icon2.svg", Node.text "d2", "/l2"⟩ (by decide) (by decide)).2.1,
   (read_label_constant ⟨"T1", "icon1.svg", Node.text "d1", "/l1"⟩
      ⟨"T2", "icon2.svg", Node.text "d2", "/l2"⟩ (by decide) (by decide)).2.2⟩

/-- C10: `Feature` is total — for arbitrary title, icon, description and
link values it returns a card (its root carries the card layout classes),
contributing exactly one card unit beyond whatever the description holds. -/
theorem feature_total (t s lk : String) (d : Node) :
    isCard (Feature { title := t, Svg := s, description := d, linkTo := lk }) = true ∧
    cardCount (Feature { title := t, Svg := s, description := d, linkTo := lk })
      = 1 + cardCount d :=
  ⟨isCard_Feature _, cardCount_Feature _⟩

end Homepage
